import Mathlib

/-!
Verification of the authentication core in `homeassistant/auth.py`
(classes `AuthManager` and `AuthStore`, entity model `User`,
`Credentials`, `Client`, and the helper `generate_secret`).

Modelling conventions, stated once:

* Python objects become Lean structures; mutation becomes explicit state
  passing (a method returns the updated objects it mutated).
* `uuid.uuid4().hex` (the default id factory of the entity classes) is
  modelled by a counter `uuid_counter` carried in the store: each
  construction draws the current value and bumps the counter.  Nothing in
  the verified claims depends on the shape of identifiers, only on their
  generation point.
* `os.urandom(n)` is modelled by an explicit entropy argument: a list of
  byte values handed to the caller of `generate_secret`.
* `AuthStore.async_save` is `pass` in the source (a deliberate no-op
  collaborator hook); it is modelled by the identity on the store state.
* The claims about `AuthStore` quantify over loaded stores, so the store
  model carries the collections directly (`users`, `clients` as lists);
  the lazy-load path (`if self.users is None: await self.async_load()`)
  and its lock are modelled separately as a small interleaving system
  (`LoadSys` below) because only the load race concerns them.
* `AuthToken` and `User.tokens` are omitted: no analysed claim mentions
  tokens, and `AuthToken` holds a back-reference to `User` that plays no
  role in any claim.
* `hmac.compare_digest(a, b)` decides equality of the two strings (its
  constant-time execution is a property of the Python library, modelled
  in the cost instrumentation below as one unit of work per call).
-/

/-- Credentials for a user on an auth provider (`class Credentials`).
`data` is the opaque provider blob (a string dict in the source). -/
structure Credentials where
  auth_provider_type : String
  auth_provider_id : Option String
  data : List (String × String)
  id : Nat
  is_new : Bool
deriving DecidableEq, Repr

/-- A user (`class User`).  `name` is optional in the source
(default `None`); `credentials` is the ordered list of owned credentials. -/
structure User where
  id : Nat
  is_owner : Bool
  is_active : Bool
  name : Option String
  credentials : List Credentials
deriving DecidableEq, Repr

/-- Client that interacts with Home Assistant on behalf of a user
(`class Client`). -/
structure Client where
  name : String
  id : String
  secret : String
deriving DecidableEq, Repr

/-- The auth provider, reduced to the single capability
`async_get_or_create_user` consumes: `async_user_meta_for_credentials`,
which returns a metadata dict (the base class returns `{}`). -/
structure AuthProvider where
  async_user_meta_for_credentials : Credentials → List (String × String)

/-- The loaded state of `class AuthStore`: the `users` and `clients`
collections, plus the modelled uuid generator state. -/
structure AuthStore where
  users : List User
  clients : List Client
  uuid_counter : Nat
deriving DecidableEq, Repr

/-- Store produced by `async_load`: both collections empty
(`self.users = []; self.clients = []`). -/
def loaded_empty_store : AuthStore := { users := [], clients := [], uuid_counter := 0 }

/-- Model of `AuthStore.async_save`, which is `pass` in the source. -/
def async_save (s : AuthStore) : AuthStore := s

/-- Model of `AuthStore.async_link_user(user, credentials)`:

    user.credentials.append(credentials)
    await self.async_save()
    credentials.is_new = False

The list appends the very object that the last line mutates, so in the
state after return the stored element carries `is_new = false`; the
no-op save between the two mutations leaves no further trace in state. -/
def async_link_user (user : User) (credentials : Credentials) : User × Credentials :=
  let credentials := { credentials with is_new := false }
  ({ user with credentials := user.credentials ++ [credentials] }, credentials)

/-- The credential comparison on line 439-440 of the source, used by the
non-new branch of `async_get_or_create_user`:

    if (creds.auth_provider_type == credentials.auth_provider_type
            and creds.auth_provider_id == creds.auth_provider_id):

The second conjunct compares `creds.auth_provider_id` with itself; the
embedding keeps that comparison exactly as written. -/
def credential_matches (credentials creds : Credentials) : Bool :=
  decide (creds.auth_provider_type = credentials.auth_provider_type) &&
  decide (creds.auth_provider_id = creds.auth_provider_id)

/-- Model of `AuthStore.async_get_or_create_user(credentials, auth_provider)`
on a loaded store.  The `is_new` branch reads provider metadata, grants
owner and active exactly when `self.users` is empty (`if self.users:` in
the source takes the truthiness of the list), appends the new user and
links the credentials to it — `self.users.append(new_user)` stores the
object that `async_link_user` then mutates, so the stored and returned
user both carry the linked credential.  The non-new branch scans users
in order and returns the first whose credential list has a match under
`credential_matches`, else raises `ValueError`. -/
def async_get_or_create_user (s : AuthStore) (credentials : Credentials)
    (auth_provider : AuthProvider) : Except String (AuthStore × User × Credentials) :=
  if credentials.is_new then
    let info := auth_provider.async_user_meta_for_credentials credentials
    let new_user : User :=
      { id := s.uuid_counter
        is_owner := s.users.isEmpty
        is_active := s.users.isEmpty
        name := info.lookup "name"
        credentials := [] }
    let linked := async_link_user new_user credentials
    .ok ({ s with users := s.users ++ [linked.1], uuid_counter := s.uuid_counter + 1 },
         linked.1, linked.2)
  else
    match s.users.find? (fun user => user.credentials.any (credential_matches credentials)) with
    | some user => .ok (s, user, credentials)
    | none => .error "We got credentials with ID but found no user"

/-- Model of `hmac.compare_digest(a, b)`: decides equality of the two
strings.  Its constant-time execution is the Python library guarantee;
the cost model below charges one unit of work per invocation. -/
def compare_digest (a b : String) : Bool := a == b

/-- The loop body of `AuthManager.async_secure_get_client`, instrumented
with a counter of `hmac.compare_digest` invocations:

    found = None
    for client in clients:
        if hmac.compare_digest(client_id, client.id):
            found = client
    return found

`found` is the running accumulator exactly as in the source; `compares`
counts one unit per loop iteration (one digest comparison each). -/
def secure_get_client_loop (client_id : String) (found : Option Client)
    (compares : Nat) : List Client → Option Client × Nat
  | [] => (found, compares)
  | client :: rest =>
      secure_get_client_loop client_id
        (if compare_digest client_id client.id then some client else found)
        (compares + 1) rest

/-- Model of `AuthManager.async_secure_get_client(client_id)`: run the
loop over `self._store.async_get_clients()` with `found = None`. -/
def async_secure_get_client (s : AuthStore) (client_id : String) : Option Client :=
  (secure_get_client_loop client_id none 0 s.clients).1

/-- The last element of a list satisfying `p` (later elements override
earlier ones), the reference point for the overwrite semantics of the
`async_secure_get_client` loop. -/
def last_match (p : Client → Bool) : List Client → Option Client
  | [] => none
  | c :: rest =>
      match last_match p rest with
      | some d => some d
      | none => if p c then some c else none

/-- Lower-case hex digit of a value below 16, as produced by
`binascii.hexlify` (48 is the code of the zero digit, 97 of the letter a). -/
def hexChar (n : Nat) : Char :=
  if n < 10 then Char.ofNat (48 + n) else Char.ofNat (97 + (n - 10))

/-- Model of `binascii.hexlify` on a byte list: two lower-case hex digits
per byte, high nibble first. -/
def hexlify : List Nat → List Char
  | [] => []
  | b :: bs => hexChar (b / 16) :: hexChar (b % 16) :: hexlify bs

/-- A character counts as a hex digit when it is a decimal digit or one
of the lower-case letters a to f (codes 48-57 and 97-102). -/
def is_hex_char (c : Char) : Bool :=
  (48 ≤ c.toNat && c.toNat ≤ 57) || (97 ≤ c.toNat && c.toNat ≤ 102)

/-- Model of `generate_secret()`:

    entropy = 64
    return binascii.hexlify(os.urandom(entropy)).decode('ascii')

`os.urandom` is modelled by the explicit oracle argument `urandom`,
mapping a requested byte count to the drawn bytes. -/
def generate_secret (urandom : Nat → List Nat) : String :=
  let entropy := 64
  String.mk (hexlify (urandom entropy))

/-- Model of `AuthStore.async_create_client(name)` on a loaded store:
construct a `Client` (id from the uuid factory, secret from
`generate_secret`), append it to `self.clients`, call the no-op
`async_save`, and return the client. -/
def async_create_client (s : AuthStore) (name : String)
    (urandom : Nat → List Nat) : AuthStore × Client :=
  let client : Client :=
    { name := name, id := toString s.uuid_counter, secret := generate_secret urandom }
  (async_save { s with clients := s.clients ++ [client],
                       uuid_counter := s.uuid_counter + 1 }, client)

/-- Owner and active flags of a user, the observation the first-user
bootstrap invariant speaks about. -/
def user_flags (u : User) : Bool × Bool := (u.is_owner, u.is_active)

/-- A sequence of `async_get_or_create_user` calls, each handing the
store returned by the previous one.  The error branch cannot fire for
fresh credentials; it halts the sequence, which keeps the function total. -/
def create_users_seq (s : AuthStore) : List (Credentials × AuthProvider) → AuthStore
  | [] => s
  | (c, p) :: rest =>
      match async_get_or_create_user s c p with
      | .ok r => create_users_seq r.1 rest
      | .error _ => s

/-!
Interleaving model of the lazy-load path, for the load-race claim.  Two
tasks each run the first store call of their life, e.g.
`credentials_for_provider`:

    if self.users is None:          # flag check, before the lock
        await self.async_load()     # async with self._load_lock:
                                    #     self.users = []; self.clients = []

Each task is a program counter over four atomic steps: 0 checks the
loaded flag (outside the lock, as in the source), 1 acquires the lock
(blocking while held), 2 runs the load body (sets the collections,
counted by `load_count`), 3 releases the lock; 4 is done.  The scheduler
may switch tasks at any await boundary, the concurrency model the spec
itself assumes for first access.
-/

/-- Global state of the two-task load race: the loaded flag
(`self.users is None` being false), the `_load_lock`, the number of
executions of the body of `async_load`, and both program counters. -/
structure LoadSys where
  loaded : Bool
  lock_held : Bool
  load_count : Nat
  pcA : Nat
  pcB : Nat
deriving DecidableEq, Repr

/-- One atomic step of a single task at program counter `pc`: returns
the next counter and updated shared state, or `none` when the task is
blocked on the lock or already done. -/
def loadTaskStep (pc : Nat) (s : LoadSys) : Option (Nat × LoadSys) :=
  match pc with
  | 0 => some (if s.loaded then 4 else 1, s)
  | 1 => if s.lock_held then none else some (2, { s with lock_held := true })
  | 2 => some (3, { s with loaded := true, load_count := s.load_count + 1 })
  | 3 => some (4, { s with lock_held := false })
  | _ => none

/-- Scheduler step: run one atomic step of task A (`false`) or task B
(`true`). -/
def loadSysStep (s : LoadSys) (t : Bool) : Option LoadSys :=
  if t then (loadTaskStep s.pcB s).map fun r => { r.2 with pcB := r.1 }
  else (loadTaskStep s.pcA s).map fun r => { r.2 with pcA := r.1 }

/-- Run a schedule (a list of task choices) from a state; `none` when a
chosen task cannot step. -/
def runSched (s : LoadSys) : List Bool → Option LoadSys
  | [] => some s
  | t :: ts =>
      match loadSysStep s t with
      | some s1 => runSched s1 ts
      | none => none

/-- Initial state of the load race: store not loaded, lock free, no load
executed, both tasks at their flag check. -/
def loadInit : LoadSys :=
  { loaded := false, lock_held := false, load_count := 0, pcA := 0, pcB := 0 }

/-!
Concrete fixtures used by witnesses and by the evaluations of the code at
failing inputs.  Provider type strings are taken from the shipped provider
names; the exact strings carry no meaning.
-/

/-- A provider whose metadata hook returns the empty dict, as the
`AuthProvider` base class does. -/
def demo_provider : AuthProvider := ⟨fun _ => []⟩

/-- A registered client fixture. -/
def demo_client : Client := { name := "dash", id := "a", secret := "s" }

/-- A store holding exactly `demo_client`. -/
def demo_store : AuthStore := { users := [], clients := [demo_client], uuid_counter := 1 }

/-- A linked credential on provider instance (insecure_example, a). -/
def cred_a : Credentials :=
  { auth_provider_type := "insecure_example", auth_provider_id := some "a"
    data := [], id := 0, is_new := false }

/-- The user owning `cred_a`. -/
def user_a : User :=
  { id := 1, is_owner := true, is_active := true, name := none, credentials := [cred_a] }

/-- A store holding exactly `user_a`. -/
def store_a : AuthStore := { users := [user_a], clients := [], uuid_counter := 2 }

/-- A non-new credential on provider instance (insecure_example, b): same
type as `cred_a`, different provider id. -/
def query_b : Credentials :=
  { auth_provider_type := "insecure_example", auth_provider_id := some "b"
    data := [], id := 3, is_new := false }

/-- A non-new credential on provider instance (insecure_example, a): the
full (type, id) key of `cred_a`. -/
def query_a : Credentials :=
  { auth_provider_type := "insecure_example", auth_provider_id := some "a"
    data := [], id := 5, is_new := false }

/-- A linked credential on provider instance (homeassistant, x). -/
def cred_x : Credentials :=
  { auth_provider_type := "homeassistant", auth_provider_id := some "x"
    data := [], id := 0, is_new := false }

/-- The user owning `cred_x`. -/
def user_x : User :=
  { id := 1, is_owner := true, is_active := true, name := none, credentials := [cred_x] }

/-- A store holding exactly `user_x`. -/
def store_x : AuthStore := { users := [user_x], clients := [], uuid_counter := 2 }

/-- A non-new credential on provider instance (homeassistant, y): no user
of `store_x` owns a credential with this (type, id) key. -/
def query_y : Credentials :=
  { auth_provider_type := "homeassistant", auth_provider_id := some "y"
    data := [], id := 4, is_new := false }

/-- A fresh (is_new) credential fixture. -/
def fresh_cred1 : Credentials :=
  { auth_provider_type := "insecure_example", auth_provider_id := none
    data := [], id := 10, is_new := true }

/-- A second fresh (is_new) credential fixture. -/
def fresh_cred2 : Credentials :=
  { auth_provider_type := "insecure_example", auth_provider_id := none
    data := [], id := 11, is_new := true }

/-- An `os.urandom` oracle drawing all-zero bytes. -/
def urandom_zero : Nat → List Nat := fun n => List.replicate n 0

/-- An `os.urandom` oracle drawing all-255 bytes. -/
def urandom_ff : Nat → List Nat := fun n => List.replicate n 255

theorem secure_get_client_loop_spec (client_id : String) :
    ∀ (l : List Client) (found : Option Client) (compares : Nat),
      secure_get_client_loop client_id found compares l =
        ((match last_match (fun c => compare_digest client_id c.id) l with
          | some d => some d
          | none => found), compares + l.length) := by
  intro l
  induction l with
  | nil => intro found compares; rfl
  | cons c rest ih =>
      intro found compares
      rw [secure_get_client_loop, ih]
      rcases h : last_match (fun c => compare_digest client_id c.id) rest with _ | d <;>
        cases hc : compare_digest client_id c.id <;>
          simp [last_match, h, hc, Nat.add_comm, Nat.add_assoc, Nat.add_left_comm]

theorem last_match_some {p : Client → Bool} :
    ∀ {l : List Client} {c : Client}, last_match p l = some c → c ∈ l ∧ p c = true := by
  intro l
  induction l with
  | nil => intro c h; simp [last_match] at h
  | cons a rest ih =>
      intro c h
      rw [last_match] at h
      cases hr : last_match p rest with
      | some d =>
          rw [hr] at h
          cases h
          obtain ⟨hm, hp⟩ := ih hr
          exact ⟨List.mem_cons_of_mem _ hm, hp⟩
      | none =>
          rw [hr] at h
          cases hpa : p a with
          | false => rw [if_neg (by simp [hpa])] at h; cases h
          | true =>
              rw [if_pos (by simp [hpa])] at h
              cases h
              exact ⟨List.mem_cons_self _ _, hpa⟩

theorem last_match_none {p : Client → Bool} :
    ∀ {l : List Client}, last_match p l = none → ∀ c ∈ l, p c = false := by
  intro l
  induction l with
  | nil => intro _ c hc; cases hc
  | cons a rest ih =>
      intro h c hc
      rw [last_match] at h
      cases hr : last_match p rest with
      | some d => rw [hr] at h; cases h
      | none =>
          rw [hr] at h
          rcases List.mem_cons.mp hc with rfl | hm
          · cases hpa : p c with
            | false => rfl
            | true => rw [if_pos (by simp [hpa])] at h; cases h
          · exact ih hr c hm

theorem async_secure_get_client_eq_last_match (s : AuthStore) (client_id : String) :
    async_secure_get_client s client_id =
      last_match (fun c => compare_digest client_id c.id) s.clients := by
  rw [async_secure_get_client, secure_get_client_loop_spec]
  cases last_match (fun c => compare_digest client_id c.id) s.clients <;> rfl

theorem last_match_eq_filter_getLast (p : Client → Bool) :
    ∀ l : List Client, last_match p l = (l.filter p).getLast? := by
  intro l
  induction l with
  | nil => rfl
  | cons c rest ih =>
      cases hc : p c
      · rw [last_match, ih, List.filter_cons_of_neg (by simp [hc])]
        cases h2 : (rest.filter p).getLast? <;> simp [hc]
      · rw [last_match, ih, List.filter_cons_of_pos hc]
        cases hf : rest.filter p with
        | nil => simp [hc]
        | cons e es =>
            have h3 : (e :: es).getLast? = some ((e :: es).getLast (by simp)) :=
              List.getLast?_eq_getLast_of_ne_nil (by simp)
            simp [h3, List.getLast?_cons_cons]

/-- C5: for every client collection and every client_id,
`async_secure_get_client` returns a registered client carrying the queried
id when one exists and the not-found sentinel `none` otherwise, and its
loop performs exactly one `compare_digest` per client in the collection,
match or no match, so it never returns early. -/
theorem c5_secure_get_client_lookup_and_full_scan (s : AuthStore) (client_id : String) :
    ((∃ c, c ∈ s.clients ∧ c.id = client_id) →
      ∃ c, async_secure_get_client s client_id = some c ∧ c ∈ s.clients ∧ c.id = client_id) ∧
    ((∀ c ∈ s.clients, c.id ≠ client_id) → async_secure_get_client s client_id = none) ∧
    (secure_get_client_loop client_id none 0 s.clients).2 = s.clients.length := by
  refine ⟨?_, ?_, ?_⟩
  · rintro ⟨c, hm, hid⟩
    rw [async_secure_get_client_eq_last_match]
    cases hl : last_match (fun c => compare_digest client_id c.id) s.clients with
    | none =>
        have hf := last_match_none hl c hm
        simp only [] at hf
        rw [hid] at hf
        simp [compare_digest] at hf
    | some d =>
        obtain ⟨hmd, hpd⟩ := last_match_some hl
        refine ⟨d, rfl, hmd, ?_⟩
        have hde : client_id = d.id := by simpa [compare_digest] using hpd
        exact hde.symm
  · intro hnone
    rw [async_secure_get_client_eq_last_match]
    cases hl : last_match (fun c => compare_digest client_id c.id) s.clients with
    | none => rfl
    | some d =>
        obtain ⟨hmd, hpd⟩ := last_match_some hl
        have hde : client_id = d.id := by simpa [compare_digest] using hpd
        exact absurd hde.symm (hnone d hmd)
  · rw [secure_get_client_loop_spec]
    simp

/-- Witness for C5 at concrete inputs: in `demo_store` the query "a" finds
the registered client and the query "zz" reports not found. -/
theorem c5_witness :
    (∃ c, async_secure_get_client demo_store "a" = some c ∧
      c ∈ demo_store.clients ∧ c.id = "a") ∧
    async_secure_get_client demo_store "zz" = none :=
  ⟨(c5_secure_get_client_lookup_and_full_scan demo_store "a").1
      ⟨demo_client, by simp [demo_store], rfl⟩,
   (c5_secure_get_client_lookup_and_full_scan demo_store "zz").2.1 (by decide)⟩

/-- C6: the number of `compare_digest` invocations of the
`async_secure_get_client` loop is a function of the number of clients
only: any two runs over collections of equal size cost the same,
regardless of the queried id and of which client, if any, matches. -/
theorem c6_secure_get_client_cost_depends_only_on_count
    (s₁ s₂ : AuthStore) (id₁ id₂ : String)
    (h : s₁.clients.length = s₂.clients.length) :
    (secure_get_client_loop id₁ none 0 s₁.clients).2 =
    (secure_get_client_loop id₂ none 0 s₂.clients).2 := by
  rw [secure_get_client_loop_spec, secure_get_client_loop_spec]
  simpa using h

/-- Witness for C6 at concrete inputs: over the same one-client store, a
matching query and a non-matching query cost the same. -/
theorem c6_witness :
    (secure_get_client_loop "a" none 0 demo_store.clients).2 =
    (secure_get_client_loop "zz" none 0 demo_store.clients).2 :=
  c6_secure_get_client_cost_depends_only_on_count demo_store demo_store "a" "zz" rfl

/-- C10: `async_secure_get_client` returns the last client of the
collection whose id equals the queried id — each later match of the loop
overwrites `found` — so when two or more clients share the queried id the
one latest in iteration order is returned. -/
theorem c10_duplicate_ids_last_match_wins (s : AuthStore) (client_id : String) :
    async_secure_get_client s client_id =
      (s.clients.filter fun c => compare_digest client_id c.id).getLast? :=
  (async_secure_get_client_eq_last_match s client_id).trans
    (last_match_eq_filter_getLast _ s.clients)

/-- C1, evaluation of the code at the failing input: in `store_a` the only
credential sits on provider instance (insecure_example, a) while `query_b`
carries provider instance (insecure_example, b), so no credential agrees
with `query_b` on the full (type, id) key; `async_get_or_create_user`
nevertheless returns `user_a`, because the comparison on line 440 of the
source tests the candidate provider id against itself instead of against
the target, which makes the lookup match on type alone. -/
theorem c1_lookup_matches_on_type_alone :
    async_get_or_create_user store_a query_b demo_provider =
      .ok (store_a, user_a, query_b) ∧
    (∀ u ∈ store_a.users, ∀ cr ∈ u.credentials,
      ¬(cr.auth_provider_type = query_b.auth_provider_type ∧
        cr.auth_provider_id = query_b.auth_provider_id)) ∧
    query_b.is_new = false :=
  ⟨rfl, by decide, rfl⟩

/-- C3, evaluation of the code at the failing input: no user of `store_x`
owns a credential matching `query_y` on the (type, id) provider-instance
key, yet `async_get_or_create_user` returns normally with `user_x` instead
of raising the data-consistency `ValueError`, again through the
self-comparison on line 440 of the source. -/
theorem c3_unmatched_non_new_does_not_error :
    async_get_or_create_user store_x query_y demo_provider =
      .ok (store_x, user_x, query_y) ∧
    (∀ u ∈ store_x.users, ∀ cr ∈ u.credentials,
      ¬(cr.auth_provider_type = query_y.auth_provider_type ∧
        cr.auth_provider_id = query_y.auth_provider_id)) ∧
    query_y.is_new = false :=
  ⟨rfl, by decide, rfl⟩

/-- C4: a call of `async_get_or_create_user` with non-new credentials that
resolves to a user leaves the store untouched and returns the credentials
unchanged, and an immediate second call with the same credentials returns
the very same user, store and credentials: no user is created by either
call. -/
theorem c4_get_or_create_non_new_idempotent
    (s s1 : AuthStore) (credentials c1 : Credentials) (u : User) (p : AuthProvider)
    (hnew : credentials.is_new = false)
    (hcall : async_get_or_create_user s credentials p = .ok (s1, u, c1)) :
    s1 = s ∧ c1 = credentials ∧
    async_get_or_create_user s1 c1 p = .ok (s1, u, c1) := by
  rw [async_get_or_create_user, if_neg (by simp [hnew])] at hcall
  cases hfind : s.users.find?
      (fun user => user.credentials.any (credential_matches credentials)) with
  | none => rw [hfind] at hcall; cases hcall
  | some w =>
      rw [hfind] at hcall
      simp only [Except.ok.injEq, Prod.mk.injEq] at hcall
      obtain ⟨hs, hu, hc⟩ := hcall
      subst hs; subst hu; subst hc
      refine ⟨rfl, rfl, ?_⟩
      rw [async_get_or_create_user, if_neg (by simp [hnew]), hfind]

/-- Witness for C4 at concrete inputs: in `store_a`, `query_a` resolves to
`user_a`; a repeated call returns the same triple. -/
theorem c4_witness :
    store_a = store_a ∧ query_a = query_a ∧
    async_get_or_create_user store_a query_a demo_provider =
      .ok (store_a, user_a, query_a) :=
  c4_get_or_create_non_new_idempotent store_a store_a query_a query_a user_a
    demo_provider rfl rfl

/-- C8: `async_link_user` leaves the credentials with `is_new = false`
whatever the prior value was, and the user collection after the call is
the old collection with exactly that credential object appended, so the
linked credentials appear in the user collection. -/
theorem c8_link_user_appends_and_clears_is_new (user : User) (credentials : Credentials) :
    (async_link_user user credentials).2.is_new = false ∧
    (async_link_user user credentials).1.credentials =
      user.credentials ++ [(async_link_user user credentials).2] ∧
    (async_link_user user credentials).2 ∈ (async_link_user user credentials).1.credentials := by
  refine ⟨rfl, rfl, ?_⟩
  simp [async_link_user]

/-- C7, evaluation of the code at the failing schedule: both tasks run
their loaded-flag check (the first two scheduler steps) before either
acquires the load lock; afterwards each acquires the lock in turn and
executes the load body, so the run completes with both tasks done and
`load_count = 2` — two load executions, and the flag check happened
outside the lock. -/
theorem c7_double_load_interleaving :
    runSched loadInit [false, true, false, false, false, true, true, true] =
      some { loaded := true, lock_held := false, load_count := 2, pcA := 4, pcB := 4 } :=
  rfl

theorem create_users_seq_flags (cps : List (Credentials × AuthProvider)) :
    ∀ s : AuthStore, (∀ x ∈ cps, x.1.is_new = true) → s.users ≠ [] →
      (create_users_seq s cps).users.map user_flags =
        s.users.map user_flags ++ List.replicate cps.length (false, false) := by
  induction cps with
  | nil => intro s _ _; simp [create_users_seq]
  | cons cp rest ih =>
      intro s hfresh hne
      obtain ⟨c, p⟩ := cp
      have hc : c.is_new = true := hfresh (c, p) (List.mem_cons_self _ _)
      have h0 : s.users.isEmpty = false := by
        cases hu : s.users with
        | nil => exact absurd hu hne
        | cons a l => rfl
      rw [create_users_seq, async_get_or_create_user, if_pos (by simp [hc])]
      rw [ih _ (fun x hx => hfresh x (List.mem_cons_of_mem _ hx)) (by simp)]
      simp [async_link_user, user_flags, h0, List.replicate_succ]

/-- C2: starting from the freshly loaded empty store, any sequence of
`async_get_or_create_user` calls with fresh (is_new) credentials creates
its first user with `is_owner = true` and `is_active = true` and every
user created afterwards — the collection being non-empty from then on —
with both flags false. -/
theorem c2_first_user_owner_active
    (c : Credentials) (p : AuthProvider) (rest : List (Credentials × AuthProvider))
    (hc : c.is_new = true) (hrest : ∀ x ∈ rest, x.1.is_new = true) :
    (create_users_seq loaded_empty_store ((c, p) :: rest)).users.map user_flags =
      (true, true) :: List.replicate rest.length (false, false) := by
  rw [create_users_seq, async_get_or_create_user, if_pos (by simp [hc])]
  rw [create_users_seq_flags rest _ hrest (by simp [loaded_empty_store])]
  simp [loaded_empty_store, async_link_user, user_flags]

/-- Witness for C2 at concrete inputs: two fresh credentials arriving at
the empty store produce flag lists [(true, true), (false, false)]. -/
theorem c2_witness :
    (create_users_seq loaded_empty_store
        [(fresh_cred1, demo_provider), (fresh_cred2, demo_provider)]).users.map user_flags =
      (true, true) :: List.replicate 1 (false, false) :=
  c2_first_user_owner_active fresh_cred1 demo_provider [(fresh_cred2, demo_provider)] rfl
    (by intro x hx; rw [List.mem_singleton] at hx; subst hx; rfl)

theorem hexlify_length : ∀ bs : List Nat, (hexlify bs).length = 2 * bs.length := by
  intro bs
  induction bs with
  | nil => rfl
  | cons b bs ih => simp [hexlify, ih]; omega

theorem hexChar_injOn : ∀ a, a < 16 → ∀ b, b < 16 → hexChar a = hexChar b → a = b := by
  decide

theorem hexlify_injOn :
    ∀ as bs : List Nat, (∀ a ∈ as, a < 256) → (∀ b ∈ bs, b < 256) →
      hexlify as = hexlify bs → as = bs := by
  intro as
  induction as with
  | nil =>
      intro bs _ _ h
      cases bs with
      | nil => rfl
      | cons b bs => simp [hexlify] at h
  | cons a as ih =>
      intro bs ha hb h
      cases bs with
      | nil => simp [hexlify] at h
      | cons b bs =>
          rw [hexlify, hexlify] at h
          injection h with h1 h2
          injection h2 with h2 h3
          have ha1 : a < 256 := ha a (List.mem_cons_self _ _)
          have hb1 : b < 256 := hb b (List.mem_cons_self _ _)
          have hd : a / 16 = b / 16 := hexChar_injOn _ (by omega) _ (by omega) h1
          have hm : a % 16 = b % 16 := hexChar_injOn _ (by omega) _ (by omega) h2
          have hab : a = b := by omega
          have htl : as = bs :=
            ih bs (fun x hx => ha x (List.mem_cons_of_mem _ hx))
              (fun x hx => hb x (List.mem_cons_of_mem _ hx)) h3
          rw [hab, htl]

theorem hexChar_is_hex : ∀ n, n < 16 → is_hex_char (hexChar n) = true := by
  decide

theorem hexlify_all_hex :
    ∀ bs : List Nat, (∀ b ∈ bs, b < 256) → (hexlify bs).all is_hex_char = true := by
  intro bs
  induction bs with
  | nil => intro _; rfl
  | cons b bs ih =>
      intro hb
      have hb1 : b < 256 := hb b (List.mem_cons_self _ _)
      simp [hexlify, ih (fun x hx => hb x (List.mem_cons_of_mem _ hx)),
        hexChar_is_hex (b / 16) (by omega), hexChar_is_hex (b % 16) (by omega)]

/-- C9: `async_create_client` appends the new client to the client
collection, and whenever the entropy source behaves as `os.urandom` does
(64 bytes per draw, byte-valued), the secret of the new client is a
128-character string of hexadecimal characters; two calls whose entropy
draws differ produce different secrets. -/
theorem c9_create_client_secret
    (s : AuthStore) (name : String) (r1 r2 : Nat → List Nat)
    (h1len : (r1 64).length = 64) (h1b : ∀ b ∈ r1 64, b < 256)
    (h2b : ∀ b ∈ r2 64, b < 256) (hne : r1 64 ≠ r2 64) :
    (async_create_client s name r1).2.secret.length = 128 ∧
    (async_create_client s name r1).2.secret.data.all is_hex_char = true ∧
    (async_create_client s name r1).2.secret ≠ (async_create_client s name r2).2.secret ∧
    (async_create_client s name r1).1.clients =
      s.clients ++ [(async_create_client s name r1).2] := by
  refine ⟨?_, ?_, ?_, ?_⟩
  · simp [async_create_client, generate_secret, String.length, hexlify_length, h1len]
  · simp only [async_create_client, generate_secret]
    exact hexlify_all_hex (r1 64) h1b
  · intro hEq
    apply hne
    apply hexlify_injOn _ _ h1b h2b
    have hdata := congrArg String.data hEq
    simpa [async_create_client, generate_secret] using hdata
  · rfl

/-- Witness for C9 at concrete inputs: with the all-zero and the all-255
entropy oracles, the created client has a 128-character all-hex secret,
the two secrets differ, and the client lands in the collection. -/
theorem c9_witness :
    (async_create_client loaded_empty_store "foo" urandom_zero).2.secret.length = 128 ∧
    (async_create_client loaded_empty_store "foo" urandom_zero).2.secret.data.all
      is_hex_char = true ∧
    (async_create_client loaded_empty_store "foo" urandom_zero).2.secret ≠
      (async_create_client loaded_empty_store "foo" urandom_ff).2.secret ∧
    (async_create_client loaded_empty_store "foo" urandom_zero).1.clients =
      loaded_empty_store.clients ++
        [(async_create_client loaded_empty_store "foo" urandom_zero).2] :=
  c9_create_client_secret loaded_empty_store "foo" urandom_zero urandom_ff
    (by decide) (by decide) (by decide) (by decide)
